import Mathlib

/-!
Verification of the promoboxx/go-session-lock coordination protocol.

Part 1 models the server-side SQL (session table, bump/end session, and the
get_work balancing procedure).  The task-level helper functions
(get_task_count, get_task_count_for_session, pickup_tasks_for_session,
get_tasks_for_session) are TODO template stubs in the repository whose
intended bodies appear only as commented SQL; those are modelled from the
spec and marked as such on each definition.

Part 2 models the in-process runner (session.go): the work loop with its
burst drain and stop/end-session path, the doWork procedure, NewRunner, and
the runner-server aggregator (runner_service.go).
-/

set_option autoImplicit false

namespace SessionLock

/-- A UTC timestamp in the session table: either the `-INFINITY` sentinel
written by `end_session`, or a finite instant measured in seconds. -/
inductive Timestamp where
  | negInf
  | fin (t : Int)
  deriving DecidableEq

/-- The liveness filter used throughout the SQL: a session row passes when
`expires >= now` (`-INFINITY` never does). -/
def tsLive (now : Int) : Timestamp → Bool
  | .negInf => false
  | .fin e => now ≤ e

/-- A row of the `session` table (`id` is the primary key). -/
structure SessionRow where
  id : Int
  expires : Timestamp
  deriving DecidableEq

/-- A row of the embedder's task table: a stable id, a nullable reference to
a session, and whether the task is still open (unfinished). -/
structure TaskRow where
  id : Int
  sessionId : Option Int
  isOpen : Bool
  deriving DecidableEq

/-- The database state seen by the session-lock procedures. -/
structure DB where
  sessions : List SessionRow
  tasks : List TaskRow
  deriving DecidableEq

/-- SQL error codes raised by the procedures; `SL001` is session-not-found. -/
inductive SqlErr where
  | sessionNotFound
  deriving DecidableEq

/-- `bump_session`: `UPDATE session SET expires = now + 2 minutes WHERE id =
in_session_id AND expires >= now; IF NOT FOUND THEN RAISE SL001`. -/
def bump_session (now sid : Int) (db : DB) : Except SqlErr DB :=
  if db.sessions.any (fun r => r.id == sid && tsLive now r.expires) then
    .ok { db with
          sessions := db.sessions.map (fun r =>
            if r.id == sid && tsLive now r.expires then
              { r with expires := Timestamp.fin (now + 120) }
            else r) }
  else .error .sessionNotFound

/-- `end_session`: `UPDATE session SET expires = '-INFINITY' WHERE id =
in_session_id` — no FOUND check, so it succeeds on expired and on missing
sessions alike. -/
def end_session (sid : Int) (db : DB) : DB :=
  { db with
    sessions := db.sessions.map (fun r =>
      if r.id == sid then { r with expires := Timestamp.negInf } else r) }

/-- Modelled from the spec: `get_task_count` is an embedder TODO stub in the
repository; per the spec it returns the total number of open tasks. -/
def get_task_count (db : DB) : Nat :=
  (db.tasks.filter (fun t => t.isOpen)).length

/-- Modelled from the spec: `get_task_count_for_session` is an embedder TODO
stub; per the spec it counts the open tasks bound to the given session. -/
def get_task_count_for_session (sid : Int) (db : DB) : Nat :=
  (db.tasks.filter (fun t => t.isOpen && t.sessionId == some sid)).length

/-- The eligibility predicate of the pickup template: a task is eligible when
it is open and either unassigned or assigned to a session whose expiration is
before `now` (via LEFT OUTER JOIN, a dangling session reference is not
eligible). -/
def eligibleTask (now : Int) (sessions : List SessionRow) (t : TaskRow) : Bool :=
  t.isOpen &&
    (match t.sessionId with
     | none => true
     | some j =>
       match sessions.find? (fun r => r.id == j) with
       | none => false
       | some s => !(tsLive now s.expires))

/-- Bind the first `n` eligible tasks (in row order) to session `sid`. -/
def pickupAux (now sid : Int) (sessions : List SessionRow) : Nat → List TaskRow → List TaskRow
  | _, [] => []
  | 0, t :: ts => t :: ts
  | n + 1, t :: ts =>
    if eligibleTask now sessions t then
      { t with sessionId := some sid } :: pickupAux now sid sessions n ts
    else
      t :: pickupAux now sid sessions (n + 1) ts

/-- Modelled from the spec: `pickup_tasks_for_session` is an embedder TODO
stub; per the spec it atomically binds up to `n` currently-eligible tasks
(unassigned or assigned to an expired session) to the session.  Row order
stands in for the template's id-based UPDATE (ids are a primary key, and the
spec leaves tie-breaking unspecified). -/
def pickup_tasks_for_session (now sid : Int) (n : Nat) (db : DB) : DB :=
  { db with tasks := pickupAux now sid db.sessions n db.tasks }

/-- Modelled from the spec: `get_tasks_for_session` is an embedder TODO stub;
per the spec it returns the open tasks bound to the session. -/
def get_tasks_for_session (sid : Int) (db : DB) : List TaskRow :=
  db.tasks.filter (fun t => t.isOpen && t.sessionId == some sid)

/-- `SELECT count(star) FROM session WHERE expires >= v_now`. -/
def liveSessionCount (now : Int) (db : DB) : Nat :=
  (db.sessions.filter (fun r => tsLive now r.expires)).length

/-- Steps 3-7 of `get_work` after the bump: count live sessions `s` and open
tasks `t`, compute `ideal = CEIL(t / s)` (for `s >= 1` the ceiling is
`(t + s - 1) / s`), and if this session's load `l` is below `ideal` pick up
`ideal - l` eligible tasks. -/
def rebalance (now sid : Int) (db1 : DB) : DB :=
  let s := liveSessionCount now db1
  let t := get_task_count db1
  let ideal := (t + s - 1) / s
  let l := get_task_count_for_session sid db1
  if l < ideal then pickup_tasks_for_session now sid (ideal - l) db1 else db1

/-- `get_work`: under the work-lock critical section, bump this session
(propagating `SL001`), rebalance, and return the open tasks bound to the
session. -/
def get_work (now sid : Int) (db : DB) : Except SqlErr (List TaskRow × DB) :=
  match bump_session now sid db with
  | .error e => .error e
  | .ok db1 =>
    let db2 := rebalance now sid db1
    .ok (get_tasks_for_session sid db2, db2)

/-- Modelled from the spec: the rebalance stage of the batch-size-aware
variant of `get_work` that the runner reaches through `Database.GetWork`
with `tasksPerSession`; the repository only declares that interface, and
per the spec the batch size "may further cap" the pickup, so the pickup
width is `min (ideal - l) batch`. -/
def rebalance_batched (now sid : Int) (batch : Nat) (db1 : DB) : DB :=
  let s := liveSessionCount now db1
  let t := get_task_count db1
  let ideal := (t + s - 1) / s
  let l := get_task_count_for_session sid db1
  if l < ideal then pickup_tasks_for_session now sid (min (ideal - l) batch) db1
  else db1

/-- Modelled from the spec: the batch-size-aware `get_work`, identical to
`get_work` except for the capped pickup width. -/
def get_work_batched (now sid : Int) (batch : Nat) (db : DB) :
    Except SqlErr (List TaskRow × DB) :=
  match bump_session now sid db with
  | .error e => .error e
  | .ok db1 =>
    let db2 := rebalance_batched now sid batch db1
    .ok (get_tasks_for_session sid db2, db2)

/-! ## Part 2: the runner (session.go) and the aggregator (runner_service.go) -/

/-- The outcome of one `doWork` call as the work loop dispatches on it: an
error, or a batch of `n` tasks (`n = 0` covers both a nil and an empty
slice). -/
inductive WorkResult where
  | err
  | batch (n : Nat)
  deriving DecidableEq

/-- Whether the inner drain loop issues another `doWork` call after seeing
this result (`tasks == nil || len(tasks) == 0` and errors both break). -/
def continues : WorkResult → Bool
  | .err => false
  | .batch n => n != 0

/-- The observable actions of the work-loop goroutine: `stopGroup.Add(1)`,
`stopGroup.Done()`, a `doWork` call with its result, and the `EndSession`
call made when the stop channel is observed closed. -/
inductive Act where
  | add
  | done
  | work (r : WorkResult)
  | endSession
  deriving DecidableEq

/-- The inner burst-drain loop of `Runner.Run`: each iteration wraps the
`doWork` call in `stopGroup.Add(1)` / `Done()`, and the loop breaks on an
error or on an empty (or nil) batch.  The argument supplies the successive
`doWork` results. -/
def drainLoop : List WorkResult → List Act
  | [] => []
  | r :: rest =>
    if continues r then Act.add :: Act.work r :: Act.done :: drainLoop rest
    else [Act.add, Act.work r, Act.done]

/-- The work-loop goroutine of `Runner.Run`: at the top of each iteration it
polls the stop channel; while the channel is open it waits for a tick and
runs the burst drain on that tick's `doWork` results; once it observes the
channel closed it calls `EndSession` and returns.  The argument lists the
`doWork` results of the ticks that fire before the close is observed. -/
def workLoop : List (List WorkResult) → List Act
  | [] => [Act.endSession]
  | rs :: rest => drainLoop rs ++ workLoop rest

/-- Net effect of an action on the `stopGroup` counter. -/
def actDelta : Act → Int
  | .add => 1
  | .done => -1
  | _ => 0

/-- The `stopGroup` counter after a list of actions has run. -/
def counterAfter (acts : List Act) : Int :=
  (acts.map actDelta).sum

/-- The `doWork` results issued, in order, by a list of actions. -/
def workCalls (acts : List Act) : List WorkResult :=
  acts.filterMap (fun a =>
    match a with
    | Act.work r => some r
    | _ => none)

/-- Traces made of complete Add / doWork / Done blocks: the shape of the
actions the work loop emits between observations of the stop channel. -/
inductive Balanced : List Act → Prop where
  | nil : Balanced []
  | block (r : WorkResult) (rest : List Act) (h : Balanced rest) :
      Balanced (Act.add :: Act.work r :: Act.done :: rest)

/-- A child entry of the aggregator, abstracted to what `runner.stop` tests
and returns: whether `state == "running"`, and whether the child `Runner`'s
drain handle (its `stopGroup`) eventually reaches zero. -/
structure AggChild where
  running : Bool
  drainReachesZero : Bool
  deriving DecidableEq

/-- `runner.stop` from runner_service.go: the child's wait handle when the
child reached the running state, and nil otherwise. -/
def childStopHandle (c : AggChild) : Option Bool :=
  if c.running then some c.drainReachesZero else none

/-- One goroutine spawned by `runnerServer.Stop`: it waits on the child's
handle and then marks its unit of the aggregate handle done.  It completes
only when the handle is non-nil (`Wait` on a nil `*sync.WaitGroup` faults,
so `Done` is never reached) and the handle reaches zero. -/
def stopGoroutineDone (c : AggChild) : Bool :=
  match childStopHandle c with
  | some h => h
  | none => false

/-- `runnerServer.Stop`: the returned aggregate handle reaches zero once
every spawned goroutine has called `Done`. -/
def aggStopReachesZero (cs : List AggChild) : Bool :=
  cs.all stopGoroutineDone

/-- `runnerServer.Run` over the children's startup outcomes (`none` = the
child's `Run()` returned nil, `some e` = it returned error `e`): children
are started in list order up to the first failure; on a failure the
aggregator calls `Stop()` on itself and returns that error.  Result:
(number of children started successfully, whether `Stop()` was called, the
returned error). -/
def aggRun : List (Option Nat) → Nat × Bool × Option Nat
  | [] => (0, false, none)
  | none :: rest =>
    let out := aggRun rest
    (out.1 + 1, out.2.1, out.2.2)
  | some e :: _ => (0, true, some e)

/-- A logger value held by a runner: the no-op logger substituted by
`NewRunner`, or an embedder-supplied one. -/
inductive LoggerV where
  | noop
  | custom (id : Nat)
  deriving DecidableEq

/-- The fields `NewRunner` fills in (collaborators abstracted to opaque
ids). -/
structure RunnerV where
  dbFinder : Nat
  client : Nat
  scanTask : Nat
  loopTick : Int
  tasksPerSession : Int
  logger : LoggerV
  tasker : Nat
  name : String
  deriving DecidableEq

/-- `NewRunner` from session.go: returns nil when the metrics client is nil;
otherwise substitutes the no-op logger for a nil logger and builds the
runner. -/
def newRunner (dbFinder scanTask tasker : Nat) (loopTick tasksPerSession : Int)
    (logger : Option LoggerV) (name : String) (client : Option Nat) :
    Option RunnerV :=
  match client with
  | none => none
  | some c =>
    let lg := match logger with
      | none => LoggerV.noop
      | some l => l
    some { dbFinder := dbFinder, client := c, scanTask := scanTask,
           loopTick := loopTick, tasksPerSession := tasksPerSession,
           logger := lg, tasker := tasker, name := name }

/-- A task value as `doWork` sees it (only `GetID` is used). -/
structure TaskV where
  id : Int
  deriving DecidableEq

/-- The `Code()` selector of a `glitch.DataError`; `sessionNotFound` is
`SL001`. -/
inductive DbErrCode where
  | sessionNotFound
  | other (code : Nat)
  deriving DecidableEq

/-- The outcomes of `doWork`'s collaborators on one iteration: whether the
`dbFinder` succeeds, the batch and error `GetWork` returns, the result of
the recovery `StartSession`, the worker function, and whether `FinishTasks`
succeeds. -/
structure WorkEnv where
  findDBOk : Bool
  getWorkTasks : List TaskV
  getWorkErr : Option DbErrCode
  startSessionResult : Option Int
  tasker : List TaskV → Option (List TaskV)
  finishOk : Bool

/-- What one `doWork` call did: the runner's session id afterwards, which
metrics were emitted (`handleError` emits a duration and an error metric,
the success path a duration only), what the worker and `FinishTasks` were
called with, and the returned batch and error flag. -/
structure WorkOut where
  sessionID : Int
  rateEmitted : Bool
  errorEmitted : Bool
  durationEmitted : Bool
  taskerCalledWith : Option (List TaskV)
  finishCalledWith : Option (List Int)
  retTasks : List TaskV
  retErr : Bool
  deriving DecidableEq

/-- The tail of `doWork` after the `GetWork` dispatch: run the worker on the
batch, collect the completed ids, call `FinishTasks`, and emit the duration
metric on success. -/
def doWorkTail (env : WorkEnv) (sid : Int) : WorkOut :=
  match env.tasker env.getWorkTasks with
  | none =>
    { sessionID := sid, rateEmitted := true, errorEmitted := true,
      durationEmitted := true, taskerCalledWith := some env.getWorkTasks,
      finishCalledWith := none, retTasks := env.getWorkTasks, retErr := true }
  | some completed =>
    let ids := completed.map TaskV.id
    if env.finishOk then
      { sessionID := sid, rateEmitted := true, errorEmitted := false,
        durationEmitted := true, taskerCalledWith := some env.getWorkTasks,
        finishCalledWith := some ids, retTasks := env.getWorkTasks,
        retErr := false }
    else
      { sessionID := sid, rateEmitted := true, errorEmitted := true,
        durationEmitted := true, taskerCalledWith := some env.getWorkTasks,
        finishCalledWith := some ids, retTasks := env.getWorkTasks,
        retErr := true }

/-- `Runner.doWork` from session.go: emit the background rate; resolve the
database; call `GetWork`; if its error code is `SL001`, adopt a new session
id via `StartSession` and fall through (returning early only if that fails);
on any other error return; then run the worker on the batch, finish the
completed ids, and emit the duration on success. -/
def doWork (env : WorkEnv) (sessionID : Int) : WorkOut :=
  if !env.findDBOk then
    { sessionID := sessionID, rateEmitted := true, errorEmitted := true,
      durationEmitted := true, taskerCalledWith := none,
      finishCalledWith := none, retTasks := [], retErr := true }
  else
    match env.getWorkErr with
    | some DbErrCode.sessionNotFound =>
      match env.startSessionResult with
      | none =>
        { sessionID := sessionID, rateEmitted := true, errorEmitted := true,
          durationEmitted := true, taskerCalledWith := none,
          finishCalledWith := none, retTasks := env.getWorkTasks,
          retErr := true }
      | some nid => doWorkTail env nid
    | some (DbErrCode.other _) =>
      { sessionID := sessionID, rateEmitted := true, errorEmitted := true,
        durationEmitted := true, taskerCalledWith := none,
        finishCalledWith := none, retTasks := env.getWorkTasks,
        retErr := true }
    | none => doWorkTail env sessionID

/-! ## Helper lemmas -/

theorem counterAfter_append (a b : List Act) :
    counterAfter (a ++ b) = counterAfter a + counterAfter b := by
  simp [counterAfter]

theorem end_session_id_eq (sid : Int) (db : DB) (r : SessionRow)
    (hr : r ∈ (end_session sid db).sessions) (hid : r.id = sid) :
    r.expires = Timestamp.negInf := by
  unfold end_session at hr
  simp only [List.mem_map] at hr
  obtain ⟨r0, _, rfl⟩ := hr
  by_cases h : r0.id = sid
  · simp [h]
  · have hb : (r0.id == sid) = false := by simp [h]
    simp only [hb, Bool.false_eq_true, if_false] at hid
    exact absurd hid h

theorem balanced_append (a b : List Act) (ha : Balanced a) (hb : Balanced b) :
    Balanced (a ++ b) := by
  induction ha with
  | nil => simpa using hb
  | block r rest _ ih =>
    rw [List.cons_append, List.cons_append, List.cons_append]
    exact Balanced.block r (rest ++ b) ih

theorem balanced_drainLoop (rs : List WorkResult) : Balanced (drainLoop rs) := by
  induction rs with
  | nil => exact Balanced.nil
  | cons r rest ih =>
    by_cases h : continues r = true
    · simp only [drainLoop, if_pos h]
      exact Balanced.block r _ ih
    · simp only [drainLoop, if_neg h]
      exact Balanced.block r [] Balanced.nil

theorem balanced_no_endSession (p : List Act) (h : Balanced p) :
    Act.endSession ∉ p := by
  induction h with
  | nil => simp
  | block r rest _ ih => simp [ih]

theorem balanced_counter (p : List Act) (h : Balanced p) : counterAfter p = 0 := by
  induction h with
  | nil => rfl
  | block r rest _ ih =>
    simp only [counterAfter, List.map_cons, List.sum_cons, actDelta] at ih ⊢
    omega

theorem balanced_midwork (p : List Act) (h : Balanced p) :
    ∀ q r q2, p = q ++ Act.work r :: q2 →
      counterAfter (q ++ [Act.work r]) = 1 := by
  induction h with
  | nil =>
    intro q r q2 hq
    exact absurd hq (by simp)
  | block r0 rest _ ih =>
    intro q r q2 hq
    cases q with
    | nil => simp at hq
    | cons a q1 =>
      cases q1 with
      | nil =>
        simp only [List.cons_append, List.nil_append, List.cons.injEq] at hq
        obtain ⟨ha, _, _⟩ := hq
        subst ha
        simp [counterAfter, actDelta]
      | cons b q2' =>
        cases q2' with
        | nil =>
          simp only [List.cons_append, List.nil_append, List.cons.injEq] at hq
          obtain ⟨_, _, hq⟩ := hq
          simp at hq
        | cons c q3 =>
          simp only [List.cons_append, List.cons.injEq] at hq
          obtain ⟨ha, hb, hc, hrest⟩ := hq
          subst ha; subst hb; subst hc
          have := ih q3 r q2 hrest
          simp only [List.cons_append, counterAfter, List.map_cons,
            List.sum_cons, actDelta] at this ⊢
          omega

theorem workLoop_eq_join (tks : List (List WorkResult)) :
    ∃ p, Balanced p ∧ workLoop tks = p ++ [Act.endSession] := by
  induction tks with
  | nil => exact ⟨[], Balanced.nil, rfl⟩
  | cons rs rest ih =>
    obtain ⟨p, hp, heq⟩ := ih
    refine ⟨drainLoop rs ++ p,
      balanced_append _ _ (balanced_drainLoop rs) hp, ?_⟩
    simp only [workLoop, heq, List.append_assoc]

theorem pickupAux_zero (now sid : Int) (sess : List SessionRow)
    (ts : List TaskRow) : pickupAux now sid sess 0 ts = ts := by
  cases ts <;> rfl

theorem pickupAux_countP_le (now sid : Int) (sess : List SessionRow) :
    ∀ (n : Nat) (ts : List TaskRow),
      List.countP (fun t => t.isOpen && t.sessionId == some sid)
          (pickupAux now sid sess n ts) ≤
        List.countP (fun t => t.isOpen && t.sessionId == some sid) ts + n := by
  intro n ts
  induction ts generalizing n with
  | nil => cases n <;> simp [pickupAux]
  | cons t ts ih =>
    cases n with
    | zero => simp [pickupAux]
    | succ m =>
      by_cases h : eligibleTask now sess t = true
      · have hstep : pickupAux now sid sess (m + 1) (t :: ts) =
            { t with sessionId := some sid } :: pickupAux now sid sess m ts := by
          simp [pickupAux, h]
        rw [hstep, List.countP_cons, List.countP_cons]
        have hm := ih m
        by_cases ho : t.isOpen <;>
          by_cases hb : (t.sessionId == some sid) = true <;>
            simp [ho, hb] <;> omega
      · have hstep : pickupAux now sid sess (m + 1) (t :: ts) =
            t :: pickupAux now sid sess (m + 1) ts := by
          simp [pickupAux, h]
        rw [hstep, List.countP_cons, List.countP_cons]
        have hm := ih (m + 1)
        omega

theorem pickupAux_countP_ge (now sid : Int) (sess : List SessionRow) :
    ∀ (n : Nat) (ts : List TaskRow),
      List.countP (fun t => t.isOpen && t.sessionId == some sid) ts ≤
        List.countP (fun t => t.isOpen && t.sessionId == some sid)
          (pickupAux now sid sess n ts) := by
  intro n ts
  induction ts generalizing n with
  | nil => cases n <;> simp [pickupAux]
  | cons t ts ih =>
    cases n with
    | zero => simp [pickupAux]
    | succ m =>
      by_cases h : eligibleTask now sess t = true
      · have hstep : pickupAux now sid sess (m + 1) (t :: ts) =
            { t with sessionId := some sid } :: pickupAux now sid sess m ts := by
          simp [pickupAux, h]
        rw [hstep, List.countP_cons, List.countP_cons]
        have hm := ih m
        by_cases ho : t.isOpen <;>
          by_cases hb : (t.sessionId == some sid) = true <;>
            simp [ho, hb] <;> omega
      · have hstep : pickupAux now sid sess (m + 1) (t :: ts) =
            t :: pickupAux now sid sess (m + 1) ts := by
          simp [pickupAux, h]
        rw [hstep, List.countP_cons, List.countP_cons]
        have hm := ih (m + 1)
        omega

theorem pickupAux_mem (now sid : Int) (sess : List SessionRow) :
    ∀ (n : Nat) (ts : List TaskRow), ∀ t' ∈ pickupAux now sid sess n ts,
      t' ∈ ts ∨ ∃ t ∈ ts, eligibleTask now sess t = true ∧
        t' = { t with sessionId := some sid } := by
  intro n ts
  induction ts generalizing n with
  | nil => cases n <;> simp [pickupAux]
  | cons t ts ih =>
    cases n with
    | zero =>
      intro t' ht'
      exact Or.inl (by simpa [pickupAux] using ht')
    | succ m =>
      intro t' ht'
      by_cases h : eligibleTask now sess t = true
      · have hstep : pickupAux now sid sess (m + 1) (t :: ts) =
            { t with sessionId := some sid } :: pickupAux now sid sess m ts := by
          simp [pickupAux, h]
        rw [hstep, List.mem_cons] at ht'
        cases ht' with
        | inl he => exact Or.inr ⟨t, by simp, h, he⟩
        | inr he =>
          cases ih m t' he with
          | inl hm => exact Or.inl (by simp [hm])
          | inr hm =>
            obtain ⟨t0, ht0, he0, heq0⟩ := hm
            exact Or.inr ⟨t0, by simp [ht0], he0, heq0⟩
      · have hstep : pickupAux now sid sess (m + 1) (t :: ts) =
            t :: pickupAux now sid sess (m + 1) ts := by
          simp [pickupAux, h]
        rw [hstep, List.mem_cons] at ht'
        cases ht' with
        | inl he => exact Or.inl (by simp [he])
        | inr he =>
          cases ih (m + 1) t' he with
          | inl hm => exact Or.inl (by simp [hm])
          | inr hm =>
            obtain ⟨t0, ht0, he0, heq0⟩ := hm
            exact Or.inr ⟨t0, by simp [ht0], he0, heq0⟩

theorem count_for_session_eq_countP (sid : Int) (db : DB) :
    get_task_count_for_session sid db =
      List.countP (fun t => t.isOpen && t.sessionId == some sid) db.tasks :=
  (List.countP_eq_length_filter _ _).symm

theorem count_for_session_pickup (now sid : Int) (n : Nat) (db : DB) :
    get_task_count_for_session sid (pickup_tasks_for_session now sid n db) =
      List.countP (fun t => t.isOpen && t.sessionId == some sid)
        (pickupAux now sid db.sessions n db.tasks) := by
  rw [count_for_session_eq_countP]
  rfl

/-! ## Claim theorems -/

/-- C2: every task in the set returned by `get_work(s)` has its session-id
column equal to `s` when the call returns. -/
theorem get_work_returns_only_own_tasks (now sid : Int) (db : DB)
    (res : List TaskRow) (db2 : DB)
    (h : get_work now sid db = Except.ok (res, db2)) :
    ∀ t ∈ res, t.sessionId = some sid := by
  unfold get_work at h
  cases hb : bump_session now sid db with
  | error e => rw [hb] at h; exact absurd h (by simp)
  | ok db1 =>
    rw [hb] at h
    simp only [Except.ok.injEq, Prod.mk.injEq] at h
    obtain ⟨hres, _⟩ := h
    intro t ht
    rw [← hres] at ht
    unfold get_tasks_for_session at ht
    have := (List.mem_filter.mp ht).2
    simp only [Bool.and_eq_true, beq_iff_eq] at this
    exact this.2

/-- C2 witness: a concrete run of `get_work` returns a task bound to the
calling session. -/
theorem get_work_returns_only_own_tasks_witness :
    ({ id := 5, sessionId := some 1, isOpen := true } : TaskRow).sessionId =
      some 1 :=
  get_work_returns_only_own_tasks 0 1
    { sessions := [{ id := 1, expires := Timestamp.fin 10 }],
      tasks := [{ id := 5, sessionId := some 1, isOpen := true }] }
    [{ id := 5, sessionId := some 1, isOpen := true }]
    { sessions := [{ id := 1, expires := Timestamp.fin 120 }],
      tasks := [{ id := 5, sessionId := some 1, isOpen := true }] }
    (by rfl)
    { id := 5, sessionId := some 1, isOpen := true }
    (by decide)

/-- C3 counterexample: with `now = 0` a session whose expiration equals
`now` is not strictly in the future, so the claim requires `bump_session`
to fail with SL001 on it; but the SQL tests `expires >= now`, and the bump
succeeds. -/
theorem bump_session_boundary_counterexample :
    ¬ (0 : Int) < 0 ∧
    bump_session 0 1
        { sessions := [{ id := 1, expires := Timestamp.fin 0 }], tasks := [] } =
      Except.ok
        { sessions := [{ id := 1, expires := Timestamp.fin 120 }], tasks := [] } := by
  exact ⟨by decide, by rfl⟩

/-- C3 amended: a session is live iff its expiration is at or after the
database's current time (`expires >= now`, boundary included, `-INFINITY`
never live); `bump_session` fails with SL001 exactly when no row with the
session's id is live in that sense, and on success it advances the row's
expiration to `now` + 2 minutes; `liveSessionCount`, the `S` of `get_work`,
counts exactly the rows with `expires >= now`. -/
theorem bump_session_liveness (now sid : Int) (db : DB) :
    (bump_session now sid db = Except.error SqlErr.sessionNotFound ↔
      ∀ r ∈ db.sessions, r.id = sid →
        ∀ e : Int, r.expires = Timestamp.fin e → e < now) ∧
    (∀ db1, bump_session now sid db = Except.ok db1 →
      ∃ r ∈ db1.sessions, r.id = sid ∧ r.expires = Timestamp.fin (now + 120)) ∧
    liveSessionCount now db =
      db.sessions.countP (fun r =>
        match r.expires with
        | Timestamp.negInf => false
        | Timestamp.fin e => decide (now ≤ e)) := by
  refine ⟨?_, ?_, ?_⟩
  · unfold bump_session
    split
    case isTrue hc =>
      obtain ⟨r, hrmem, hrp⟩ := List.any_eq_true.mp hc
      simp only [Bool.and_eq_true, beq_iff_eq] at hrp
      constructor
      · intro h; exact absurd h (by simp)
      · intro h
        cases hex : r.expires with
        | negInf => rw [hex] at hrp; simp [tsLive] at hrp
        | fin e =>
          rw [hex] at hrp
          have hlt := h r hrmem hrp.1 e hex
          have : now ≤ e := by
            have := hrp.2; simp [tsLive] at this; exact this
          omega
    case isFalse hc =>
      have hall := List.any_eq_false.mp (Bool.of_not_eq_true hc)
      constructor
      · intro _ r hrmem hid e hex
        have := hall r hrmem
        simp only [Bool.and_eq_true, beq_iff_eq, not_and] at this
        have hnl := this hid
        rw [hex] at hnl
        simp [tsLive] at hnl
        omega
      · intro _; rfl
  · intro db1 h
    unfold bump_session at h
    split at h
    case isFalse => exact absurd h (by simp)
    case isTrue hc =>
      obtain ⟨r, hrmem, hrp⟩ := List.any_eq_true.mp hc
      simp only [Except.ok.injEq] at h
      refine ⟨{ r with expires := Timestamp.fin (now + 120) }, ?_, ?_, rfl⟩
      · rw [← h]
        simp only [List.mem_map]
        exact ⟨r, hrmem, by rw [if_pos hrp]⟩
      · simp only [Bool.and_eq_true, beq_iff_eq] at hrp
        exact hrp.1
  · rw [liveSessionCount, ← List.countP_eq_length_filter]
    apply List.countP_congr
    intro r _
    cases r.expires with
    | negInf => simp [tsLive]
    | fin e => simp [tsLive]

/-- C3 amended witness: a successful bump on a live session advances its
expiration to now + 2 minutes. -/
theorem bump_session_liveness_witness :
    ∃ r ∈ ({ sessions := [{ id := 1, expires := Timestamp.fin 120 }],
             tasks := [] } : DB).sessions,
      r.id = 1 ∧ r.expires = Timestamp.fin (0 + 120) :=
  (bump_session_liveness 0 1
      { sessions := [{ id := 1, expires := Timestamp.fin 30 }], tasks := [] }).2.1
    { sessions := [{ id := 1, expires := Timestamp.fin 120 }], tasks := [] }
    (by rfl)

/-- C4: `end_session` forces the session's expiration to the past sentinel,
is idempotent (it succeeds silently on already-expired and on missing
sessions, and a second run leaves the state of the first), and a subsequent
`bump_session` fails with SL001. -/
theorem end_session_spec (now sid : Int) (db : DB) :
    (∀ r ∈ (end_session sid db).sessions, r.id = sid →
      r.expires = Timestamp.negInf) ∧
    end_session sid (end_session sid db) = end_session sid db ∧
    bump_session now sid (end_session sid db) =
      Except.error SqlErr.sessionNotFound := by
  refine ⟨fun r hr hid => end_session_id_eq sid db r hr hid, ?_, ?_⟩
  · unfold end_session
    simp only [List.map_map]
    congr 1
    apply List.map_congr_left
    intro r _
    by_cases h : r.id = sid <;> simp [Function.comp, h]
  · unfold bump_session
    rw [if_neg]
    intro hc
    obtain ⟨r, hrmem, hrp⟩ := List.any_eq_true.mp hc
    simp only [Bool.and_eq_true, beq_iff_eq] at hrp
    have := end_session_id_eq sid db r hrmem hrp.1
    rw [this] at hrp
    simp [tsLive] at hrp

/-- C4 witness: ending a session twice equals ending it once, and bumping
afterwards yields SL001, at a concrete state. -/
theorem end_session_spec_witness :
    bump_session 0 1
        (end_session 1 { sessions := [{ id := 1, expires := Timestamp.fin 50 }],
                         tasks := [] }) =
      Except.error SqlErr.sessionNotFound :=
  (end_session_spec 0 1
      { sessions := [{ id := 1, expires := Timestamp.fin 50 }], tasks := [] }).2.2

/-- C9: `NewRunner` returns nil exactly when the metrics client argument is
nil, regardless of the other arguments; with a non-nil client it returns a
runner whose logger is the supplied one or the no-op substitute, so every
log call on the constructed runner is safe. -/
theorem newRunner_client_and_logger (d s t : Nat) (lt tps : Int)
    (logger : Option LoggerV) (nm : String) :
    newRunner d s t lt tps logger nm none = none ∧
    ∀ c : Nat, ∃ r : RunnerV,
      newRunner d s t lt tps logger nm (some c) = some r ∧
      r.client = c ∧ r.logger = logger.getD LoggerV.noop := by
  refine ⟨rfl, fun c => ?_⟩
  cases logger <;> exact ⟨_, rfl, rfl, rfl⟩

/-- C9 witness: a nil client yields a nil runner at concrete arguments. -/
theorem newRunner_client_and_logger_witness :
    newRunner 0 1 2 3 4 none "jobs" none = none :=
  (newRunner_client_and_logger 0 1 2 3 4 none "jobs").1

/-- C10: when `GetWork` fails with SL001 and the recovery `StartSession`
succeeds, `doWork` does not return early: it adopts the new session id,
invokes the worker on the nil batch from the failed `GetWork`, calls
`FinishTasks` with an empty id list, and reports the iteration as
successful (duration metric emitted, no error metric, nil error). -/
theorem doWork_sl001_recovery (env : WorkEnv) (sid nid : Int)
    (hfind : env.findDBOk = true)
    (herr : env.getWorkErr = some DbErrCode.sessionNotFound)
    (hnil : env.getWorkTasks = [])
    (hstart : env.startSessionResult = some nid)
    (htasker : env.tasker [] = some [])
    (hfin : env.finishOk = true) :
    doWork env sid =
      { sessionID := nid, rateEmitted := true, errorEmitted := false,
        durationEmitted := true, taskerCalledWith := some [],
        finishCalledWith := some [], retTasks := [], retErr := false } := by
  simp [doWork, doWorkTail, hfind, herr, hnil, hstart, htasker, hfin]

/-- C10 witness: a concrete environment in which `GetWork` loses the session
and `StartSession` recovers. -/
theorem doWork_sl001_recovery_witness :
    doWork
        { findDBOk := true, getWorkTasks := [],
          getWorkErr := some DbErrCode.sessionNotFound,
          startSessionResult := some 42,
          tasker := fun ts => some ts, finishOk := true } 7 =
      { sessionID := 42, rateEmitted := true, errorEmitted := false,
        durationEmitted := true, taskerCalledWith := some [],
        finishCalledWith := some [], retTasks := [], retErr := false } :=
  doWork_sl001_recovery _ 7 42 rfl rfl rfl rfl rfl rfl

/-- C6: the work loop, on observing the closed stop channel at the top of a
tick, calls `EndSession` exactly once and as its very last action (no
further work iterations follow); the stopGroup counter is back at zero by
then, and while any `doWork` call is in flight the counter is one, so the
drain handle returned by `Stop()` reaches zero only after the in-flight
work call completes. -/
theorem workLoop_stop_spec (tks : List (List WorkResult)) :
    ∃ p : List Act,
      workLoop tks = p ++ [Act.endSession] ∧
      Act.endSession ∉ p ∧
      (workLoop tks).count Act.endSession = 1 ∧
      counterAfter p = 0 ∧
      ∀ q r q2, p = q ++ Act.work r :: q2 →
        counterAfter (q ++ [Act.work r]) = 1 := by
  obtain ⟨p, hp, heq⟩ := workLoop_eq_join tks
  refine ⟨p, heq, balanced_no_endSession p hp, ?_, balanced_counter p hp,
    balanced_midwork p hp⟩
  rw [heq, List.count_append, List.count_eq_zero.mpr (balanced_no_endSession p hp)]
  rfl

/-- C7: within one tick, after each successful `doWork` call that returned a
non-empty batch another call is issued immediately (inside the same drain
loop, with no further tick consumed), and the repetition stops exactly at
the first empty (or nil) batch or error. -/
theorem drainLoop_burst_spec (pre : List WorkResult) (s : WorkResult)
    (post : List WorkResult)
    (hpre : ∀ r ∈ pre, continues r = true)
    (hs : continues s = false) :
    workCalls (drainLoop (pre ++ s :: post)) = pre ++ [s] := by
  induction pre with
  | nil =>
    simp only [List.nil_append, drainLoop, hs, Bool.false_eq_true, if_false]
    simp [workCalls]
  | cons r rest ih =>
    have hr : continues r = true := hpre r (by simp)
    have ih2 := ih fun x hx => hpre x (by simp [hx])
    simp only [List.cons_append, drainLoop, hr, if_true]
    simp only [workCalls, List.filterMap_cons, List.append_eq] at ih2 ⊢
    rw [ih2]

/-- C7 witness: one successful non-empty batch followed by an error; the
drain loop makes exactly the two calls. -/
theorem drainLoop_burst_spec_witness :
    (∀ r ∈ [WorkResult.batch 2], continues r = true) ∧
    continues WorkResult.err = false ∧
    workCalls (drainLoop ([WorkResult.batch 2] ++ WorkResult.err ::
        [WorkResult.batch 5])) = [WorkResult.batch 2] ++ [WorkResult.err] :=
  ⟨by decide, by decide,
    drainLoop_burst_spec [WorkResult.batch 2] WorkResult.err
      [WorkResult.batch 5] (by decide) (by decide)⟩

/-- C8 counterexample: a single child that never reached the running state
(so it has no pending work at all), for which the claim's wait handle
should reach zero; but `runner.stop` returns a nil handle for it, the
waiting goroutine faults before calling `Done`, and the aggregate handle
never reaches zero. -/
theorem aggStop_nonstarted_counterexample :
    (∀ c ∈ [({ running := false, drainReachesZero := true } : AggChild)],
        c.drainReachesZero = true) ∧
    aggStopReachesZero [{ running := false, drainReachesZero := true }] = false := by
  decide

/-- C8 amended: `Run()` starts the children in list order up to the first
failure, on which it calls `Stop()` and returns that error (and starts all
of them, returning nil, when none fails); the aggregate handle returned by
`Stop()` reaches zero iff every child both reached the running state and
has a drain handle that reaches zero — a child that never started yields a
nil handle whose waiting goroutine faults, so the aggregate handle then
never reaches zero. -/
theorem runnerServer_run_stop_spec (outcomes pre post : List (Option Nat))
    (e : Nat) (cs : List AggChild) (hpre : ∀ x ∈ pre, x = none) :
    ((∀ x ∈ outcomes, x = none) →
      aggRun outcomes = (outcomes.length, false, none)) ∧
    aggRun (pre ++ some e :: post) = (pre.length, true, some e) ∧
    aggStopReachesZero cs =
      cs.all (fun c => c.running && c.drainReachesZero) := by
  refine ⟨?_, ?_, ?_⟩
  · intro h
    induction outcomes with
    | nil => rfl
    | cons x rest ih =>
      have hx := h x (by simp)
      subst hx
      have := ih fun y hy => h y (by simp [hy])
      simp [aggRun, this]
  · induction pre with
    | nil => rfl
    | cons x rest ih =>
      have hx := hpre x (by simp)
      subst hx
      have := ih fun y hy => hpre y (by simp [hy])
      simp [aggRun, this]
  · have hfun : ∀ c : AggChild,
        stopGoroutineDone c = (c.running && c.drainReachesZero) := by
      intro c
      cases hc : c.running <;>
        simp [stopGoroutineDone, childStopHandle, hc]
    simp only [aggStopReachesZero]
    rw [funext hfun]

/-- C8 amended witness: one failing child after one success, and a running
child with a drained handle. -/
theorem runnerServer_run_stop_spec_witness :
    aggRun (([none] : List (Option Nat)) ++ some 3 :: []) =
      (([none] : List (Option Nat)).length, true, some 3) :=
  (runnerServer_run_stop_spec [] [none] [] 3
    [{ running := true, drainReachesZero := true }] (by simp)).2.1

/-- C1: `get_work` on a live session works inside the critical section with
`S` live sessions, `T` open tasks, and this session's load `L`; it computes
`ideal = ceil(T / S)` (here `(T + S - 1) / S` with `S >= 1`); if
`L < ideal` it binds only eligible tasks (unassigned or bound to an expired
session) to the session, never lowers its load, and raises it to at most
`ideal` (so at most `ideal - L` pickups); if `L >= ideal` it binds none;
and it returns exactly the open tasks bound to the session. -/
theorem get_work_balances (now sid : Int) (db : DB)
    (hlive : db.sessions.any
      (fun r => r.id == sid && tsLive now r.expires) = true) :
    ∃ db1 res db2,
      bump_session now sid db = Except.ok db1 ∧
      get_work now sid db = Except.ok (res, db2) ∧
      1 ≤ liveSessionCount now db1 ∧
      (let S := liveSessionCount now db1
       let T := get_task_count db1
       let ideal := (T + S - 1) / S
       let L := get_task_count_for_session sid db1
       (ideal ≤ L → db2 = db1) ∧
       (L < ideal →
          L ≤ get_task_count_for_session sid db2 ∧
          get_task_count_for_session sid db2 ≤ ideal ∧
          ∀ t' ∈ db2.tasks, t' ∈ db1.tasks ∨
            ∃ t ∈ db1.tasks, eligibleTask now db1.sessions t = true ∧
              t' = { t with sessionId := some sid }) ∧
       res = db2.tasks.filter (fun t => t.isOpen && t.sessionId == some sid)) := by
  set db1v : DB := { db with
    sessions := db.sessions.map (fun r =>
      if r.id == sid && tsLive now r.expires then
        { r with expires := Timestamp.fin (now + 120) }
      else r) } with hdb1
  have hb : bump_session now sid db = Except.ok db1v := by
    rw [hdb1]
    unfold bump_session
    rw [if_pos hlive]
  have hg : get_work now sid db =
      Except.ok (get_tasks_for_session sid (rebalance now sid db1v),
        rebalance now sid db1v) := by
    unfold get_work
    rw [hb]
  have hS : 1 ≤ liveSessionCount now db1v := by
    obtain ⟨r, hrmem, hrp⟩ := List.any_eq_true.mp hlive
    have hmem2 : ({ r with expires := Timestamp.fin (now + 120) } : SessionRow)
        ∈ db1v.sessions := by
      rw [hdb1]
      exact List.mem_map.mpr ⟨r, hrmem, by rw [if_pos hrp]⟩
    have hfil : ({ r with expires := Timestamp.fin (now + 120) } : SessionRow)
        ∈ db1v.sessions.filter (fun r0 => tsLive now r0.expires) := by
      refine List.mem_filter.mpr ⟨hmem2, ?_⟩
      simp [tsLive]
    rw [liveSessionCount]
    exact List.length_pos_of_mem hfil
  have hcond1 : (get_task_count db1v + liveSessionCount now db1v - 1) /
        liveSessionCount now db1v ≤ get_task_count_for_session sid db1v →
      rebalance now sid db1v = db1v := by
    intro hle
    simp only [rebalance]
    rw [if_neg (by omega)]
  have hcond2 : get_task_count_for_session sid db1v <
        (get_task_count db1v + liveSessionCount now db1v - 1) /
          liveSessionCount now db1v →
      (get_task_count_for_session sid db1v ≤
          get_task_count_for_session sid (rebalance now sid db1v) ∧
        get_task_count_for_session sid (rebalance now sid db1v) ≤
          (get_task_count db1v + liveSessionCount now db1v - 1) /
            liveSessionCount now db1v ∧
        ∀ t' ∈ (rebalance now sid db1v).tasks, t' ∈ db1v.tasks ∨
          ∃ t ∈ db1v.tasks, eligibleTask now db1v.sessions t = true ∧
            t' = { t with sessionId := some sid }) := by
    intro hlt
    have hreb : rebalance now sid db1v =
        pickup_tasks_for_session now sid
          ((get_task_count db1v + liveSessionCount now db1v - 1) /
              liveSessionCount now db1v -
            get_task_count_for_session sid db1v) db1v := by
      simp only [rebalance]
      rw [if_pos hlt]
    refine ⟨?_, ?_, ?_⟩
    · rw [hreb, count_for_session_pickup, count_for_session_eq_countP]
      exact pickupAux_countP_ge now sid db1v.sessions _ db1v.tasks
    · rw [hreb, count_for_session_pickup]
      have hle2 := pickupAux_countP_le now sid db1v.sessions
        ((get_task_count db1v + liveSessionCount now db1v - 1) /
            liveSessionCount now db1v -
          get_task_count_for_session sid db1v) db1v.tasks
      have hLc := count_for_session_eq_countP sid db1v
      omega
    · rw [hreb]
      intro t' ht'
      exact pickupAux_mem now sid db1v.sessions _ db1v.tasks t' ht'
  exact ⟨db1v, _, _, hb, hg, hS, hcond1, hcond2, rfl⟩

/-- C1 witness: two sessions (one live, one expired) and three open tasks;
the live session's `get_work` succeeds. -/
theorem get_work_balances_witness :
    ({ sessions := [{ id := 1, expires := Timestamp.fin 100 },
                    { id := 2, expires := Timestamp.negInf }],
       tasks := [{ id := 10, sessionId := none, isOpen := true },
                 { id := 11, sessionId := some 2, isOpen := true },
                 { id := 12, sessionId := some 1, isOpen := true }] } : DB).sessions.any
        (fun r => r.id == 1 && tsLive 0 r.expires) = true ∧
    ∃ db1 res db2,
      bump_session 0 1
          { sessions := [{ id := 1, expires := Timestamp.fin 100 },
                         { id := 2, expires := Timestamp.negInf }],
            tasks := [{ id := 10, sessionId := none, isOpen := true },
                      { id := 11, sessionId := some 2, isOpen := true },
                      { id := 12, sessionId := some 1, isOpen := true }] } =
        Except.ok db1 ∧
      get_work 0 1
          { sessions := [{ id := 1, expires := Timestamp.fin 100 },
                         { id := 2, expires := Timestamp.negInf }],
            tasks := [{ id := 10, sessionId := none, isOpen := true },
                      { id := 11, sessionId := some 2, isOpen := true },
                      { id := 12, sessionId := some 1, isOpen := true }] } =
        Except.ok (res, db2) ∧
      1 ≤ liveSessionCount 0 db1 ∧
      (let S := liveSessionCount 0 db1
       let T := get_task_count db1
       let ideal := (T + S - 1) / S
       let L := get_task_count_for_session 1 db1
       (ideal ≤ L → db2 = db1) ∧
       (L < ideal →
          L ≤ get_task_count_for_session 1 db2 ∧
          get_task_count_for_session 1 db2 ≤ ideal ∧
          ∀ t' ∈ db2.tasks, t' ∈ db1.tasks ∨
            ∃ t ∈ db1.tasks, eligibleTask 0 db1.sessions t = true ∧
              t' = { t with sessionId := some 1 }) ∧
       res = db2.tasks.filter (fun t => t.isOpen && t.sessionId == some 1)) :=
  ⟨by decide, get_work_balances 0 1 _ (by decide)⟩

/-- C5: the batch size is a cap on the pickup, not on the returned set: on a
live session, `get_work` with batch 0 performs no pickup, returns exactly
the already-bound open tasks, and does not error; and with any batch the
session's load grows by at most `batch`. -/
theorem get_work_batched_cap (now sid : Int) (batch : Nat) (db : DB)
    (hlive : db.sessions.any
      (fun r => r.id == sid && tsLive now r.expires) = true) :
    ∃ db1,
      bump_session now sid db = Except.ok db1 ∧
      get_work_batched now sid 0 db =
        Except.ok
          (db.tasks.filter (fun t => t.isOpen && t.sessionId == some sid), db1) ∧
      ∃ res2 db2,
        get_work_batched now sid batch db = Except.ok (res2, db2) ∧
        get_task_count_for_session sid db2 ≤
          get_task_count_for_session sid db1 + batch := by
  set db1v : DB := { db with
    sessions := db.sessions.map (fun r =>
      if r.id == sid && tsLive now r.expires then
        { r with expires := Timestamp.fin (now + 120) }
      else r) } with hdb1
  have hb : bump_session now sid db = Except.ok db1v := by
    rw [hdb1]
    unfold bump_session
    rw [if_pos hlive]
  have hzero : rebalance_batched now sid 0 db1v = db1v := by
    simp only [rebalance_batched, Nat.min_zero, pickup_tasks_for_session,
      pickupAux_zero]
    split <;> rfl
  have hg0 : get_work_batched now sid 0 db =
      Except.ok
        (db.tasks.filter (fun t => t.isOpen && t.sessionId == some sid), db1v) := by
    unfold get_work_batched
    rw [hb]
    simp only [hzero]
    rfl
  have hgb : get_work_batched now sid batch db =
      Except.ok (get_tasks_for_session sid (rebalance_batched now sid batch db1v),
        rebalance_batched now sid batch db1v) := by
    unfold get_work_batched
    rw [hb]
  have hbound : get_task_count_for_session sid
        (rebalance_batched now sid batch db1v) ≤
      get_task_count_for_session sid db1v + batch := by
    simp only [rebalance_batched]
    split
    case isTrue hlt =>
      rw [count_for_session_pickup]
      have hle2 := pickupAux_countP_le now sid db1v.sessions
        (min ((get_task_count db1v + liveSessionCount now db1v - 1) /
              liveSessionCount now db1v -
            get_task_count_for_session sid db1v) batch) db1v.tasks
      have hmin : min ((get_task_count db1v + liveSessionCount now db1v - 1) /
              liveSessionCount now db1v -
            get_task_count_for_session sid db1v) batch ≤ batch :=
        Nat.min_le_right _ _
      have hLc := count_for_session_eq_countP sid db1v
      omega
    case isFalse => omega
  exact ⟨db1v, hb, hg0, _, _, hgb, hbound⟩

/-- C5 witness: one live session, three open tasks, batch 1. -/
theorem get_work_batched_cap_witness :
    ({ sessions := [{ id := 1, expires := Timestamp.fin 50 }],
       tasks := [{ id := 7, sessionId := none, isOpen := true },
                 { id := 8, sessionId := none, isOpen := true },
                 { id := 9, sessionId := some 1, isOpen := true }] } : DB).sessions.any
        (fun r => r.id == 1 && tsLive 0 r.expires) = true ∧
    ∃ db1,
      bump_session 0 1
          { sessions := [{ id := 1, expires := Timestamp.fin 50 }],
            tasks := [{ id := 7, sessionId := none, isOpen := true },
                      { id := 8, sessionId := none, isOpen := true },
                      { id := 9, sessionId := some 1, isOpen := true }] } =
        Except.ok db1 ∧
      get_work_batched 0 1 0
          { sessions := [{ id := 1, expires := Timestamp.fin 50 }],
            tasks := [{ id := 7, sessionId := none, isOpen := true },
                      { id := 8, sessionId := none, isOpen := true },
                      { id := 9, sessionId := some 1, isOpen := true }] } =
        Except.ok
          (List.filter (fun t => t.isOpen && t.sessionId == some 1)
            [{ id := 7, sessionId := none, isOpen := true },
             { id := 8, sessionId := none, isOpen := true },
             { id := 9, sessionId := some 1, isOpen := true }], db1) ∧
      ∃ res2 db2,
        get_work_batched 0 1 1
            { sessions := [{ id := 1, expires := Timestamp.fin 50 }],
              tasks := [{ id := 7, sessionId := none, isOpen := true },
                        { id := 8, sessionId := none, isOpen := true },
                        { id := 9, sessionId := some 1, isOpen := true }] } =
          Except.ok (res2, db2) ∧
        get_task_count_for_session 1 db2 ≤ get_task_count_for_session 1 db1 + 1 :=
  ⟨by decide, get_work_batched_cap 0 1 1 _ (by decide)⟩

end SessionLock
